import Mathlib

/-!
Verification development for the Process Manager MCP server.

The definitions below are a shallow embedding of the TypeScript source:

* `getSiteToken` / `getSearchToken` embed `AuthManager.getSiteToken` and
  `AuthManager.getSearchToken` from `src/auth.ts`.  Network I/O is modelled
  by an environment `Env` fixing the current clock value (`Date.now()`, in
  milliseconds) and the response each endpoint would deliver; each function
  returns its result, the updated cache state, and the list of network
  exchanges it performed.  JavaScript truthiness of the cached fields
  (`this.siteToken && this.siteTokenExpiry && Date.now() < this.siteTokenExpiry`)
  is modelled exactly: the empty string and the numeric value `0` are falsy.
  Times are integers (milliseconds); `expires_in * 1000 * 0.9` equals
  `900 * expires_in` exactly for integer `expires_in`.
* Each `throw new Error(...)` site becomes one constructor of `AuthErr`.
-/

/-- Body of a successful site-auth response (`SiteAuthResponse` in config.ts).
`expires_in` is in seconds, modelled as an integer. -/
structure SiteAuthResponse where
  access_token : String
  expires_in : Nat
deriving DecidableEq, Repr

/-- Body of a successful search-auth response (`SearchAuthResponse` in config.ts). -/
structure SearchAuthResponse where
  Status : String
  Message : String
deriving DecidableEq, Repr

/-- Outcome of an HTTP fetch: `ok` (2xx with a parsed body of type `α`) or a
non-success status with its status text and error body (`!response.ok`). -/
inductive HttpResult (α : Type) where
  | ok (body : α)
  | fail (status : Nat) (statusText : String) (body : String)
deriving DecidableEq, Repr

/-- The distinct `throw new Error(...)` sites of the auth manager. -/
inductive AuthErr where
  /-- Thrown as `Site authentication failed: <status> <statusText> - <errorText>`. -/
  | siteHttpFailed (status : Nat) (statusText : String) (body : String)
  /-- Thrown as `Search authentication failed: <status> <statusText> - <errorText>`. -/
  | searchHttpFailed (status : Nat) (statusText : String) (body : String)
  /-- Thrown as `Search authentication failed: <Status>` (HTTP 200, non-success sentinel). -/
  | searchNonSuccess (status : String)
deriving DecidableEq, Repr

/-- One outbound token exchange (a `fetch` in the source). -/
inductive NetCall where
  | siteExchange
  | searchExchange
deriving DecidableEq, Repr

/-- The mutable cache cells of `AuthManager`. -/
structure AuthState where
  siteToken : Option String
  siteTokenExpiry : Option Nat
  searchToken : Option String
  searchTokenExpiry : Option Nat
deriving DecidableEq, Repr

/-- Initial state: all four cache cells are `null`. -/
def initialAuthState : AuthState :=
  { siteToken := none, siteTokenExpiry := none, searchToken := none,
    searchTokenExpiry := none }

/-- Environment of one call: current clock and the response each endpoint
would return if contacted. -/
structure Env where
  now : Nat
  siteResp : HttpResult SiteAuthResponse
  searchResp : HttpResult SearchAuthResponse

/-- JS condition `token && expiry && Date.now() < expiry`: the token must be a
non-null, non-empty string, the expiry a non-null, non-zero number in the
strict future. -/
def cacheValid (now : Nat) (token : Option String) (expiry : Option Nat) : Bool :=
  match token, expiry with
  | some t, some e => !(t == "") && !(e == 0) && decide (now < e)
  | _, _ => false

/-- Embedding of `AuthManager.getSiteToken(force)`.  Returns the result (the
token or the thrown error), the cache state afterwards, and the performed
network exchanges. -/
def getSiteToken (env : Env) (force : Bool) (s : AuthState) :
    Except AuthErr String × AuthState × List NetCall :=
  if !force && cacheValid env.now s.siteToken s.siteTokenExpiry then
    (.ok (s.siteToken.getD ""), s, [])
  else
    match env.siteResp with
    | .fail status statusText body =>
        (.error (.siteHttpFailed status statusText body), s, [.siteExchange])
    | .ok data =>
        (.ok data.access_token,
         { s with siteToken := some data.access_token,
                  siteTokenExpiry := some (env.now + 900 * data.expires_in) },
         [.siteExchange])

/-- Embedding of `AuthManager.getSearchToken(force)`.  The refresh path first
runs `getSiteToken` with `force = false` (the source calls it with no
argument); a site failure aborts.  On HTTP success the body's `Status`
must equal `"Success"`; the cached expiry is `Date.now() + 8 * 60 * 1000`. -/
def getSearchToken (env : Env) (force : Bool) (s : AuthState) :
    Except AuthErr String × AuthState × List NetCall :=
  if !force && cacheValid env.now s.searchToken s.searchTokenExpiry then
    (.ok (s.searchToken.getD ""), s, [])
  else
    match getSiteToken env false s with
    | (.error e, s₁, calls) => (.error e, s₁, calls)
    | (.ok _, s₁, calls) =>
        match env.searchResp with
        | .fail status statusText body =>
            (.error (.searchHttpFailed status statusText body), s₁,
             calls ++ [.searchExchange])
        | .ok data =>
            if data.Status ≠ "Success" then
              (.error (.searchNonSuccess data.Status), s₁,
               calls ++ [.searchExchange])
            else
              (.ok data.Message,
               { s₁ with searchToken := some data.Message,
                         searchTokenExpiry := some (env.now + 8 * 60 * 1000) },
               calls ++ [.searchExchange])

/-- Results of `n` successive `getSiteToken(false)` calls against a fixed
environment (no time advance), threading the cache state. -/
def siteCallResults (env : Env) : Nat → AuthState → List (Except AuthErr String × List NetCall)
  | 0, _ => []
  | n + 1, s =>
      let r := getSiteToken env false s
      (r.1, r.2.2) :: siteCallResults env n r.2.1

/-- The search-token attempt fails at the exchange: non-success HTTP status,
or HTTP 200 with a body whose `Status` is not the success sentinel. -/
def searchRespFailed (env : Env) : Prop :=
  (∃ status statusText body, env.searchResp = .fail status statusText body) ∨
  (∃ r, env.searchResp = .ok r ∧ r.Status ≠ "Success")

/-!
Startup configuration (`src/config.ts` lines 411–428, identical in
`src/index.ts` lines 36–52).  `process.env.X` is `string | undefined`,
modelled as `Option String`; `x || 'default'` takes the default also for the
empty string (JS falsiness).  `process.exit(1)` is modelled as the `error`
branch carrying the exit status and the diagnostic message; the `ok` branch
carries the configuration with which `new AuthManager(config)` then runs.
-/

/-- Structure `ProcessManagerConfig` (config.ts); `region` is kept as the raw
string cast from the environment. -/
structure ProcessManagerConfig where
  region : String
  siteName : String
  username : String
  password : String
  scimApiKey : Option String
deriving DecidableEq, Repr

/-- The five environment variables the server reads. -/
structure EnvVars where
  PM_REGION : Option String
  PM_SITE_NAME : Option String
  PM_USERNAME : Option String
  PM_PASSWORD : Option String
  PM_SCIM_API_KEY : Option String
deriving DecidableEq, Repr

/-- JS `value || fallback` for an environment string: `undefined` and the
empty string both yield the fallback. -/
def orFallback (v : Option String) (fallback : String) : String :=
  match v with
  | none => fallback
  | some s => if s == "" then fallback else s

/-- The `config` object literal: region defaults to `'au'`, the other fields
default to the empty string. -/
def loadConfig (env : EnvVars) : ProcessManagerConfig :=
  { region := orFallback env.PM_REGION "au"
    siteName := orFallback env.PM_SITE_NAME ""
    username := orFallback env.PM_USERNAME ""
    password := orFallback env.PM_PASSWORD ""
    scimApiKey := env.PM_SCIM_API_KEY }

/-- Diagnostic printed before `process.exit(1)`. -/
def missingConfigMessage : String :=
  "Error: Missing required configuration. Please set PM_SITE_NAME, PM_USERNAME, and PM_PASSWORD environment variables."

/-- Startup sequence: build `config`, validate
`!config.siteName || !config.username || !config.password`, and either exit
with status 1 or proceed to constructing the `AuthManager`. -/
def startup (env : EnvVars) : Except (Nat × String) ProcessManagerConfig :=
  let config := loadConfig env
  if config.siteName == "" || config.username == "" || config.password == "" then
    .error (1, missingConfigMessage)
  else
    .ok config

/-!
Output bounding (`src/config.ts` lines 434–488).  Text is modelled as
`List Char` (JS strings are sequences of code units; all constants involved
are ASCII).  `Number.prototype.toLocaleString()` on a non-negative integer is
modelled as the decimal digits grouped in threes by commas, the Node default.
`warningThreshold` is `MAX_TEXT_CHARS * 0.8`; as a float this is not exactly
`80000`, but no integer length lies between `80000` and the rounded float, so
the integer comparison `text.length > 80000` is exact.
-/

/-- Decimal digit character for a value `0 ≤ d ≤ 9`. -/
def digitChar (d : Nat) : Char := Char.ofNat (48 + d)

/-- Little-endian decimal digits of `n`, with explicit structural fuel
(`fuel ≥ n` suffices, since the argument shrinks by division by 10). -/
def digitsRevCore : Nat → Nat → List Char
  | 0, _ => []
  | _, 0 => []
  | fuel + 1, n + 1 => digitChar ((n + 1) % 10) :: digitsRevCore fuel ((n + 1) / 10)

/-- Little-endian decimal digits of `n`. -/
def digitsRev (n : Nat) : List Char := digitsRevCore n n

/-- Walk a little-endian digit list emitting a comma after every third digit
that is followed by further digits; `k` counts digits in the current group. -/
def commaRev : Nat → List Char → List Char
  | _, [] => []
  | k, c :: rest =>
      if k == 2 && !rest.isEmpty then c :: ',' :: commaRev 0 rest
      else c :: commaRev (k + 1) rest

/-- Model of `n.toLocaleString()`: decimal digits with thousands separators. -/
def toLocaleString (n : Nat) : List Char :=
  if n == 0 then ['0'] else (commaRev 0 (digitsRev n)).reverse

/-- `OUTPUT_LIMITS.MAX_TEXT_CHARS`. -/
def MAX_TEXT_CHARS : Nat := 100000

/-- `OUTPUT_LIMITS.MAX_LIST_ITEMS`. -/
def MAX_LIST_ITEMS : Nat := 50

/-- `OUTPUT_LIMITS.MAX_HIERARCHY_DEPTH`. -/
def MAX_HIERARCHY_DEPTH : Int := 10

/-- `MAX_TEXT_CHARS * WARNING_THRESHOLD` with `WARNING_THRESHOLD = 0.8`. -/
def warningThreshold : Nat := MAX_TEXT_CHARS * 80 / 100

/-- The interpolated truncation notice of `truncateOutput`. -/
def truncationMessage (maxChars totalLen : Nat) : List Char :=
  "\n\n---\n**Output truncated.** Showing first ".data ++ toLocaleString maxChars ++
    " characters of ".data ++ toLocaleString totalLen ++
    " total. Use pagination or more specific queries to retrieve remaining data.\n".data

/-- Embedding of `truncateOutput(text, maxChars)`.  `text.substring(0, k)` with
a negative `k` yields the empty string, matching truncated `Nat` subtraction
composed with `List.take`. -/
def truncateOutput (text : List Char) (maxChars : Nat) : List Char :=
  if text.length ≤ maxChars then text
  else
    text.take (maxChars - (truncationMessage maxChars text.length).length) ++
      truncationMessage maxChars text.length

/-- Embedding of `estimateTokenCount`: `Math.ceil(text.length / 4)`. -/
def estimateTokenCount (text : List Char) : Nat := (text.length + 3) / 4

/-- The interpolated size warning of `addContextWarningIfNeeded`. -/
def contextWarning (estimatedTokens : Nat) : List Char :=
  "\n\n> **Note:** This response contains approximately ".data ++
    toLocaleString estimatedTokens ++
    " tokens. Consider using more specific queries if you need to preserve context for follow-up questions.\n".data

/-- Embedding of `addContextWarningIfNeeded(text)`: appends the size warning
when `text.length > warningThreshold`. -/
def addContextWarningIfNeeded (text : List Char) : List Char :=
  if warningThreshold < text.length then
    text ++ contextWarning (estimateTokenCount text)
  else text

/-- Embedding of `prepareTextOutput(text)`: truncation at the default maximum,
then the size warning check. -/
def prepareTextOutput (text : List Char) : List Char :=
  addContextWarningIfNeeded (truncateOutput text MAX_TEXT_CHARS)

/-!
Group hierarchy traversal (`src/config.ts` lines 1102–1175).  The upstream
endpoint `authManager.getGroupTreeItems` is modelled as a pure oracle
`api : Option String → TreeItemsResponse`; `buildGroupTree` returns the
processed items together with the depth at which each upstream request was
issued.  `handleGetGroupHierarchy` always passes a numeric `maxDepth`
(`requestedDepth !== null ? Math.min(requestedDepth, MAX_HIERARCHY_DEPTH)
: MAX_HIERARCHY_DEPTH`), so the embedded `buildGroupTree` takes `maxDepth :
Int`, never the `null` that the TypeScript signature would also admit.
-/

/-- Tree item of the group hierarchy, restricted to the fields the traversal
reads or writes (`uniqueId`, `itemType`, `hasChild`, `children`). -/
inductive TreeItem where
  | mk (uniqueId : String) (itemType : String) (hasChild : Option Bool)
      (children : Option (List TreeItem))

/-- Field accessor for `uniqueId`. -/
def TreeItem.uniqueId : TreeItem → String
  | .mk u _ _ _ => u

/-- Field accessor for `itemType`. -/
def TreeItem.itemType : TreeItem → String
  | .mk _ t _ _ => t

/-- Field accessor for `hasChild`. -/
def TreeItem.hasChild : TreeItem → Option Bool
  | .mk _ _ h _ => h

/-- Spread copy `{...item}` followed by assigning `processedItem.children`. -/
def TreeItem.setChildren : TreeItem → Option (List TreeItem) → TreeItem
  | .mk u t h _, c => .mk u t h c

/-- Response shape of the tree-items endpoint (`TreeItemsResponse`). -/
structure TreeItemsResponse where
  treeItems : List TreeItem
  parentUniqueId : String

mutual

/-- Embedding of `buildGroupTree(groupUniqueId, currentDepth, maxDepth,
includeProcesses)`.  Besides the processed items, it returns the depths of
all upstream requests issued (one per recursive visit that passes the depth
guard). -/
def buildGroupTree (api : Option String → TreeItemsResponse) (gid : Option String)
    (currentDepth : Nat) (maxDepth : Int) (includeProcesses : Bool) :
    List TreeItem × List Nat :=
  if _h : maxDepth ≤ (currentDepth : Int) then ([], [])
  else
    let r := processItems api (api gid).treeItems currentDepth maxDepth includeProcesses
    (r.1, currentDepth :: r.2)
termination_by ((maxDepth - currentDepth).toNat, 1, 0)

/-- The `for (const item of items)` loop body of `buildGroupTree`: recurse
into group items that have children, then drop process items when
`includeProcesses` is false. -/
def processItems (api : Option String → TreeItemsResponse) (items : List TreeItem)
    (currentDepth : Nat) (maxDepth : Int) (includeProcesses : Bool) :
    List TreeItem × List Nat :=
  match items with
  | [] => ([], [])
  | item :: rest =>
      let pair :=
        if item.itemType == "group" && item.hasChild.getD false then
          let sub := buildGroupTree api (some item.uniqueId) (currentDepth + 1)
            maxDepth includeProcesses
          (item.setChildren (some sub.1), sub.2)
        else (item, [])
      let tail := processItems api rest currentDepth maxDepth includeProcesses
      if !includeProcesses &&
          (item.itemType == "process" || item.itemType == "inprogress-process") then
        (tail.1, pair.2 ++ tail.2)
      else
        (pair.1 :: tail.1, pair.2 ++ tail.2)
termination_by ((maxDepth - (currentDepth + 1)).toNat, 2, items.length)

end

/-- Effective depth bound computed by `handleGetGroupHierarchy`:
`requestedDepth !== null ? Math.min(requestedDepth, MAX_HIERARCHY_DEPTH) :
MAX_HIERARCHY_DEPTH`. -/
def effectiveMaxDepth (requestedDepth : Option Int) : Int :=
  match requestedDepth with
  | some d => min d MAX_HIERARCHY_DEPTH
  | none => MAX_HIERARCHY_DEPTH

/-- Embedding of the traversal started by `handleGetGroupHierarchy`:
`buildGroupTree(null, 0, maxDepth, includeProcesses)` with the capped bound. -/
def handleGetGroupHierarchyTree (api : Option String → TreeItemsResponse)
    (requestedDepth : Option Int) (includeProcesses : Bool) :
    List TreeItem × List Nat :=
  buildGroupTree api none 0 (effectiveMaxDepth requestedDepth) includeProcesses

/-!
Theorems.  Each claim theorem carries its claim id; witnesses instantiate
the hypotheses at concrete inputs.
-/

/-- Helper: `getSiteToken` never touches the search-tier cache cells. -/
theorem getSiteToken_preserves_search (env : Env) (force : Bool) (s : AuthState) :
    (getSiteToken env force s).2.1.searchToken = s.searchToken ∧
    (getSiteToken env force s).2.1.searchTokenExpiry = s.searchTokenExpiry := by
  unfold getSiteToken
  cases h : (!force && cacheValid env.now s.siteToken s.siteTokenExpiry) <;>
    cases hr : env.siteResp <;> simp

/-- C1: starting from empty caches, the first `getSiteToken(false)` call
against a successful password-grant response performs exactly one site
exchange and caches the token; with no time advance, every one of the `n`
subsequent `getSiteToken(false)` calls returns the identical cached token
with no network call.  The response must carry a non-empty token and a
positive lifetime, so that the cached expiry lies in the future (the clause
the claim itself gives as the reason the cached token is returned). -/
theorem siteToken_cached_after_first_exchange (env : Env) (tok : String) (E : Nat) (n : Nat)
    (hresp : env.siteResp = .ok ⟨tok, E⟩) (htok : tok ≠ "") (hE : 0 < E) :
    getSiteToken env false initialAuthState =
      (.ok tok,
       { siteToken := some tok, siteTokenExpiry := some (env.now + 900 * E),
         searchToken := none, searchTokenExpiry := none }, [.siteExchange]) ∧
    siteCallResults env n
      { siteToken := some tok, siteTokenExpiry := some (env.now + 900 * E),
        searchToken := none, searchTokenExpiry := none } =
      List.replicate n (.ok tok, []) := by
  constructor
  · simp [getSiteToken, initialAuthState, cacheValid, hresp]
  · induction n with
    | zero => simp [siteCallResults]
    | succ n ih =>
        have hvalid : cacheValid env.now (some tok) (some (env.now + 900 * E)) = true := by
          simp [cacheValid, htok]
          omega
        simp [siteCallResults, getSiteToken, hvalid, ih, List.replicate_succ]

/-- Witness for C1 at a concrete environment (token `"T"`, lifetime 3600 s,
three subsequent calls). -/
theorem siteToken_cached_after_first_exchange_w :
    ((⟨1000, .ok ⟨"T", 3600⟩, .ok ⟨"Success", "M"⟩⟩ : Env).siteResp = .ok ⟨"T", 3600⟩ ∧
      "T" ≠ "" ∧ 0 < 3600) ∧
    (getSiteToken ⟨1000, .ok ⟨"T", 3600⟩, .ok ⟨"Success", "M"⟩⟩ false initialAuthState =
        (.ok "T",
         { siteToken := some "T", siteTokenExpiry := some (1000 + 900 * 3600),
           searchToken := none, searchTokenExpiry := none }, [.siteExchange]) ∧
      siteCallResults ⟨1000, .ok ⟨"T", 3600⟩, .ok ⟨"Success", "M"⟩⟩ 3
          { siteToken := some "T", siteTokenExpiry := some (1000 + 900 * 3600),
            searchToken := none, searchTokenExpiry := none } =
        List.replicate 3 (.ok "T", [])) :=
  ⟨⟨rfl, by decide, by decide⟩,
   siteToken_cached_after_first_exchange _ "T" 3600 3 rfl (by decide) (by decide)⟩

/-- C2: a refresh against a response with lifetime `expires_in = E` seconds
stores expiry exactly `now + 0.9 * E * 1000 = now + 900 * E` milliseconds,
and a `getSiteToken(false)` call at `now + 0.95 * E * 1000` performs a fresh
network exchange instead of returning the cached token. -/
theorem siteToken_expiry_margin (env : Env) (s : AuthState) (tok : String) (E : Nat)
    (hresp : env.siteResp = .ok ⟨tok, E⟩)
    (hmiss : cacheValid env.now s.siteToken s.siteTokenExpiry = false) :
    (getSiteToken env false s).2.1.siteTokenExpiry = some (env.now + 900 * E) ∧
    (getSiteToken { env with now := env.now + 950 * E } false
        (getSiteToken env false s).2.1).2.2 = [.siteExchange] := by
  have h1 : getSiteToken env false s =
      (.ok tok,
       { s with siteToken := some tok, siteTokenExpiry := some (env.now + 900 * E) },
       [.siteExchange]) := by
    simp [getSiteToken, hmiss, hresp]
  rw [h1]
  refine ⟨rfl, ?_⟩
  have hlt : ¬ (env.now + 950 * E < env.now + 900 * E) := by omega
  simp [getSiteToken, cacheValid, hlt, hresp]

/-- Witness for C2 at a concrete environment (lifetime 100 s, empty cache). -/
theorem siteToken_expiry_margin_w :
    ((⟨5000, .ok ⟨"A", 100⟩, .ok ⟨"Success", "M"⟩⟩ : Env).siteResp = .ok ⟨"A", 100⟩ ∧
      cacheValid 5000 initialAuthState.siteToken initialAuthState.siteTokenExpiry = false) ∧
    ((getSiteToken ⟨5000, .ok ⟨"A", 100⟩, .ok ⟨"Success", "M"⟩⟩ false
        initialAuthState).2.1.siteTokenExpiry = some (5000 + 900 * 100) ∧
      (getSiteToken ⟨5000 + 950 * 100, .ok ⟨"A", 100⟩, .ok ⟨"Success", "M"⟩⟩ false
        (getSiteToken ⟨5000, .ok ⟨"A", 100⟩, .ok ⟨"Success", "M"⟩⟩ false
          initialAuthState).2.1).2.2 = [.siteExchange]) :=
  ⟨⟨rfl, by decide⟩,
   siteToken_expiry_margin ⟨5000, .ok ⟨"A", 100⟩, .ok ⟨"Success", "M"⟩⟩
     initialAuthState "A" 100 rfl (by decide)⟩

/-- C3: with both caches empty, one `getSearchToken` call performs exactly a
site exchange followed by a search exchange and nothing else, provided the
site exchange's HTTP response is successful (a site failure would abort
before the search exchange). -/
theorem searchToken_exchange_order (env : Env) (tok : String) (E : Nat)
    (hresp : env.siteResp = .ok ⟨tok, E⟩) :
    (getSearchToken env false initialAuthState).2.2 =
      [.siteExchange, .searchExchange] := by
  have hsite : getSiteToken env false initialAuthState =
      (.ok tok,
       { siteToken := some tok, siteTokenExpiry := some (env.now + 900 * E),
         searchToken := none, searchTokenExpiry := none }, [.siteExchange]) := by
    simp [getSiteToken, initialAuthState, cacheValid, hresp]
  unfold getSearchToken
  rw [hsite]
  cases hr : env.searchResp with
  | fail status statusText body => simp [initialAuthState, cacheValid]
  | ok data =>
      by_cases hst : data.Status = "Success" <;>
        simp [initialAuthState, cacheValid, hst]

/-- Witness for C3 at a concrete environment (the search endpoint answering
with HTTP 500; the two exchanges still happen in order). -/
theorem searchToken_exchange_order_w :
    ((⟨0, .ok ⟨"S", 60⟩, .fail 500 "ISE" "boom"⟩ : Env).siteResp = .ok ⟨"S", 60⟩) ∧
    (getSearchToken ⟨0, .ok ⟨"S", 60⟩, .fail 500 "ISE" "boom"⟩ false
      initialAuthState).2.2 = [.siteExchange, .searchExchange] :=
  ⟨rfl, searchToken_exchange_order ⟨0, .ok ⟨"S", 60⟩, .fail 500 "ISE" "boom"⟩ "S" 60 rfl⟩

/-- C4: a search-token exchange whose HTTP response is successful but whose
body carries `Status ≠ "Success"` fails with the dedicated non-success error
(a different error site than the HTTP-failure throw), and the search-tier
cache cells are left untouched. -/
theorem searchToken_nonsuccess_fails (env : Env) (s : AuthState) (tok msg st : String) (E : Nat)
    (hsite : env.siteResp = .ok ⟨tok, E⟩)
    (hsearch : env.searchResp = .ok ⟨st, msg⟩)
    (hst : st ≠ "Success")
    (hmiss : cacheValid env.now s.searchToken s.searchTokenExpiry = false) :
    (getSearchToken env false s).1 = .error (.searchNonSuccess st) ∧
    (getSearchToken env false s).2.1.searchToken = s.searchToken ∧
    (getSearchToken env false s).2.1.searchTokenExpiry = s.searchTokenExpiry ∧
    ∀ status statusText body,
      AuthErr.searchNonSuccess st ≠ .searchHttpFailed status statusText body := by
  unfold getSearchToken
  cases hc : cacheValid env.now s.siteToken s.siteTokenExpiry with
  | false => simp [getSiteToken, hc, hmiss, hsite, hsearch, hst]
  | true => simp [getSiteToken, hc, hmiss, hsite, hsearch, hst]

/-- Witness for C4 at a concrete environment (HTTP 200 with body status
`"Failed"`). -/
theorem searchToken_nonsuccess_fails_w :
    ((⟨100, .ok ⟨"S", 60⟩, .ok ⟨"Failed", "J"⟩⟩ : Env).siteResp = .ok ⟨"S", 60⟩ ∧
      (⟨100, .ok ⟨"S", 60⟩, .ok ⟨"Failed", "J"⟩⟩ : Env).searchResp = .ok ⟨"Failed", "J"⟩ ∧
      "Failed" ≠ "Success" ∧
      cacheValid 100 initialAuthState.searchToken initialAuthState.searchTokenExpiry = false) ∧
    ((getSearchToken ⟨100, .ok ⟨"S", 60⟩, .ok ⟨"Failed", "J"⟩⟩ false initialAuthState).1 =
        .error (.searchNonSuccess "Failed") ∧
      (getSearchToken ⟨100, .ok ⟨"S", 60⟩, .ok ⟨"Failed", "J"⟩⟩ false
        initialAuthState).2.1.searchToken = initialAuthState.searchToken ∧
      (getSearchToken ⟨100, .ok ⟨"S", 60⟩, .ok ⟨"Failed", "J"⟩⟩ false
        initialAuthState).2.1.searchTokenExpiry = initialAuthState.searchTokenExpiry ∧
      ∀ status statusText body,
        AuthErr.searchNonSuccess "Failed" ≠ .searchHttpFailed status statusText body) :=
  ⟨⟨rfl, rfl, by decide, by decide⟩,
   searchToken_nonsuccess_fails ⟨100, .ok ⟨"S", 60⟩, .ok ⟨"Failed", "J"⟩⟩
     initialAuthState "S" "J" "Failed" 60 rfl rfl (by decide) (by decide)⟩

/-- C5: a failed site exchange leaves the whole cache state exactly as it
was (forced or not), and a failed search exchange — non-success HTTP status
or non-success body sentinel — leaves the search-tier token and expiry
exactly as they were (forced or not). -/
theorem failed_exchange_preserves_cache :
    (∀ env force s status statusText body,
        env.siteResp = .fail status statusText body →
        (getSiteToken env force s).2.1 = s) ∧
    (∀ env force s, searchRespFailed env →
        (getSearchToken env force s).2.1.searchToken = s.searchToken ∧
        (getSearchToken env force s).2.1.searchTokenExpiry = s.searchTokenExpiry) := by
  constructor
  · intro env force s status statusText body hresp
    unfold getSiteToken
    cases h : (!force && cacheValid env.now s.siteToken s.siteTokenExpiry) <;>
      simp [hresp]
  · intro env force s hfail
    unfold getSearchToken
    cases h : (!force && cacheValid env.now s.searchToken s.searchTokenExpiry) with
    | true => simp
    | false =>
        have hpres := getSiteToken_preserves_search env false s
        rcases hsr : getSiteToken env false s with ⟨res, s₁, calls⟩
        rw [hsr] at hpres
        cases res with
        | error e => simpa using hpres
        | ok t =>
            rcases hfail with ⟨status, statusText, body, hx⟩ | ⟨r, hx, hne⟩
            · simp [hx]
              simpa using hpres
            · simp [hx, hne]
              simpa using hpres

/-- Witness for C5: a forced site refresh against HTTP 500 leaves a
previously populated cache state intact, and a forced search refresh whose
exchange answers HTTP 403 leaves the search-tier cells intact. -/
theorem failed_exchange_preserves_cache_w :
    ((⟨1, .fail 500 "ISE" "b", .ok ⟨"Success", "M"⟩⟩ : Env).siteResp = .fail 500 "ISE" "b" ∧
      searchRespFailed ⟨2, .ok ⟨"T", 10⟩, .fail 403 "Forbidden" "x"⟩) ∧
    ((getSiteToken ⟨1, .fail 500 "ISE" "b", .ok ⟨"Success", "M"⟩⟩ true
        ⟨some "oldS", some 99999, some "oldQ", some 88888⟩).2.1 =
        ⟨some "oldS", some 99999, some "oldQ", some 88888⟩ ∧
      (getSearchToken ⟨2, .ok ⟨"T", 10⟩, .fail 403 "Forbidden" "x"⟩ true
          ⟨some "oldS", some 99999, some "oldQ", some 88888⟩).2.1.searchToken =
        (⟨some "oldS", some 99999, some "oldQ", some 88888⟩ : AuthState).searchToken ∧
      (getSearchToken ⟨2, .ok ⟨"T", 10⟩, .fail 403 "Forbidden" "x"⟩ true
          ⟨some "oldS", some 99999, some "oldQ", some 88888⟩).2.1.searchTokenExpiry =
        (⟨some "oldS", some 99999, some "oldQ", some 88888⟩ : AuthState).searchTokenExpiry) :=
  ⟨⟨rfl, Or.inl ⟨403, "Forbidden", "x", rfl⟩⟩,
   failed_exchange_preserves_cache.1 ⟨1, .fail 500 "ISE" "b", .ok ⟨"Success", "M"⟩⟩ true
       ⟨some "oldS", some 99999, some "oldQ", some 88888⟩ 500 "ISE" "b" rfl,
   failed_exchange_preserves_cache.2 ⟨2, .ok ⟨"T", 10⟩, .fail 403 "Forbidden" "x"⟩ true
       ⟨some "oldS", some 99999, some "oldQ", some 88888⟩ (Or.inl ⟨403, "Forbidden", "x", rfl⟩)⟩

/-- Helper: the request list of one `processItems` step is the requests of the
child recursion (for a group item with children) followed by those of the
rest of the loop; the `includeProcesses` filter does not affect requests. -/
theorem processItems_snd (api : Option String → TreeItemsResponse) (item : TreeItem)
    (rest : List TreeItem) (d : Nat) (maxD : Int) (inc : Bool) :
    (processItems api (item :: rest) d maxD inc).2 =
      (if item.itemType == "group" && item.hasChild.getD false then
        (buildGroupTree api (some item.uniqueId) (d + 1) maxD inc).2
      else []) ++ (processItems api rest d maxD inc).2 := by
  rw [processItems]
  by_cases hg : (item.itemType == "group" && item.hasChild.getD false) = true <;>
    by_cases hf : (!inc && (item.itemType == "process" ||
        item.itemType == "inprogress-process")) = true <;>
      simp [hg, hf]

/-- Helper: one unfolding of the request list of `buildGroupTree`: nothing at
or past the bound, otherwise one request at the current depth plus the loop's
requests. -/
theorem buildGroupTree_snd (api : Option String → TreeItemsResponse) (gid : Option String)
    (d : Nat) (maxD : Int) (inc : Bool) :
    (buildGroupTree api gid d maxD inc).2 =
      if maxD ≤ (d : Int) then []
      else d :: (processItems api (api gid).treeItems d maxD inc).2 := by
  rw [buildGroupTree]
  by_cases h : maxD ≤ (d : Int) <;> simp [h]

/-- Helper: by induction on the remaining depth budget, every upstream
request recorded by the traversal is issued strictly below the depth bound. -/
theorem request_depths_lt (n : Nat) :
    (∀ (api : Option String → TreeItemsResponse) (gid : Option String) (d : Nat)
        (maxD : Int) (inc : Bool), (maxD - (d : Int)).toNat ≤ n →
      ∀ r ∈ (buildGroupTree api gid d maxD inc).2, (r : Int) < maxD) ∧
    (∀ (api : Option String → TreeItemsResponse) (items : List TreeItem) (d : Nat)
        (maxD : Int) (inc : Bool), (maxD - ((d : Int) + 1)).toNat ≤ n →
      ∀ r ∈ (processItems api items d maxD inc).2, (r : Int) < maxD) := by
  induction n with
  | zero =>
      constructor
      · intro api gid d maxD inc hle r hr
        have h : maxD ≤ (d : Int) := by omega
        rw [buildGroupTree_snd] at hr
        simp [h] at hr
      · intro api items d maxD inc hle r hr
        induction items with
        | nil => rw [processItems] at hr; simp at hr
        | cons item rest irh =>
            rw [processItems_snd] at hr
            rcases List.mem_append.1 hr with h1 | h1
            · by_cases hg : (item.itemType == "group" && item.hasChild.getD false) = true
              · rw [if_pos hg, buildGroupTree_snd] at h1
                simp at h1
                omega
              · rw [if_neg hg] at h1; simp at h1
            · exact irh h1
  | succ n ih =>
      have hbuild : ∀ (api : Option String → TreeItemsResponse) (gid : Option String)
          (d : Nat) (maxD : Int) (inc : Bool), (maxD - (d : Int)).toNat ≤ n + 1 →
          ∀ r ∈ (buildGroupTree api gid d maxD inc).2, (r : Int) < maxD := by
        intro api gid d maxD inc hle r hr
        rw [buildGroupTree_snd] at hr
        by_cases h : maxD ≤ (d : Int)
        · simp [h] at hr
        · rw [if_neg h] at hr
          rcases List.mem_cons.1 hr with rfl | h1
          · omega
          · exact ih.2 api (api gid).treeItems d maxD inc (by omega) r h1
      refine ⟨hbuild, ?_⟩
      intro api items d maxD inc hle r hr
      induction items with
      | nil => rw [processItems] at hr; simp at hr
      | cons item rest irh =>
          rw [processItems_snd] at hr
          rcases List.mem_append.1 hr with h1 | h1
          · by_cases hg : (item.itemType == "group" && item.hasChild.getD false) = true
            · rw [if_pos hg] at h1
              exact hbuild api (some item.uniqueId) (d + 1) maxD inc
                (by push_cast; omega) r h1
            · rw [if_neg hg] at h1; simp at h1
          · exact irh h1

/-- C6: for every caller-requested depth (absent or any integer), the bound
handed to `buildGroupTree` is the minimum of the request and the hard cap
`MAX_HIERARCHY_DEPTH` (the cap itself when the request is absent), it never
exceeds the cap, and the traversal issues every upstream request at a depth
strictly below that bound — so no node at or beyond the bound is fetched. -/
theorem hierarchy_depth_capped (requestedDepth : Option Int)
    (api : Option String → TreeItemsResponse) (includeProcesses : Bool) :
    effectiveMaxDepth requestedDepth ≤ MAX_HIERARCHY_DEPTH ∧
    (∀ d, requestedDepth = some d →
      effectiveMaxDepth requestedDepth = min d MAX_HIERARCHY_DEPTH) ∧
    (requestedDepth = none → effectiveMaxDepth requestedDepth = MAX_HIERARCHY_DEPTH) ∧
    ∀ r ∈ (handleGetGroupHierarchyTree api requestedDepth includeProcesses).2,
      (r : Int) < effectiveMaxDepth requestedDepth := by
  refine ⟨?_, ?_, ?_, ?_⟩
  · cases requestedDepth with
    | none => exact le_refl _
    | some d => exact min_le_right _ _
  · intro d hd; subst hd; rfl
  · intro hd; subst hd; rfl
  · intro r hr
    exact (request_depths_lt (effectiveMaxDepth requestedDepth - (0 : Int)).toNat).1
      api none 0 (effectiveMaxDepth requestedDepth) includeProcesses (le_refl _) r hr

/-- Witness for C6: requested depth 99 against a two-level oracle; the
effective bound is 10 and the request issued at depth 1 is below it. -/
theorem hierarchy_depth_capped_w :
    ((some 99 : Option Int) = some 99 ∧
      (1 : Nat) ∈ (handleGetGroupHierarchyTree
        (fun gid => if gid.isNone then
            ⟨[.mk "g1" "group" (some true) none], "r"⟩ else ⟨[], "x"⟩)
        (some 99) true).2) ∧
    (effectiveMaxDepth (some 99) ≤ MAX_HIERARCHY_DEPTH ∧
      effectiveMaxDepth (some 99) = min 99 MAX_HIERARCHY_DEPTH ∧
      ((1 : Nat) : Int) < effectiveMaxDepth (some 99)) := by
  have hmem : (1 : Nat) ∈ (handleGetGroupHierarchyTree
      (fun gid => if gid.isNone then
          ⟨[.mk "g1" "group" (some true) none], "r"⟩ else ⟨[], "x"⟩)
      (some 99) true).2 := by
    simp [handleGetGroupHierarchyTree, effectiveMaxDepth, MAX_HIERARCHY_DEPTH,
      buildGroupTree_snd, processItems_snd, processItems,
      TreeItem.itemType, TreeItem.hasChild, TreeItem.uniqueId]
  have Hthm := hierarchy_depth_capped (some 99)
    (fun gid => if gid.isNone then
        ⟨[.mk "g1" "group" (some true) none], "r"⟩ else ⟨[], "x"⟩) true
  exact ⟨⟨rfl, hmem⟩, Hthm.1, Hthm.2.1 99 rfl, Hthm.2.2.2 1 hmem⟩

/-- Helper: inserting thousands separators at most doubles the digit count. -/
theorem commaRev_length_le (l : List Char) : ∀ k, (commaRev k l).length ≤ 2 * l.length := by
  induction l with
  | nil => intro k; simp [commaRev]
  | cons c rest ih =>
      intro k
      rw [commaRev]
      by_cases h : (k == 2 && !rest.isEmpty) = true
      · rw [if_pos h]
        have := ih 0
        simp only [List.length_cons]
        omega
      · rw [if_neg h]
        have := ih (k + 1)
        simp only [List.length_cons]
        omega

/-- Helper: a number below `10 ^ k` has at most `k` decimal digits. -/
theorem digitsRevCore_length_le (fuel : Nat) :
    ∀ n k, n < 10 ^ k → (digitsRevCore fuel n).length ≤ k := by
  induction fuel with
  | zero => intro n k _; cases n <;> simp [digitsRevCore]
  | succ fuel ih =>
      intro n k hn
      cases n with
      | zero => simp [digitsRevCore]
      | succ m =>
          rw [digitsRevCore]
          have hk : 0 < k := by
            by_contra hk0
            have : k = 0 := by omega
            subst this
            simp at hn
          have hdiv : (m + 1) / 10 < 10 ^ (k - 1) := by
            have h10 : 10 ^ k = 10 ^ (k - 1) * 10 := by
              conv =>
                lhs
                rw [show k = (k - 1) + 1 by omega]
              rw [pow_succ]
            apply Nat.div_lt_of_lt_mul
            omega
          have := ih ((m + 1) / 10) (k - 1) hdiv
          simp only [List.length_cons]
          omega

/-- Helper: the grouped decimal rendering of `n < 10 ^ k` (with `0 < k`) has
at most `2 * k` characters. -/
theorem toLocaleString_length_le (n k : Nat) (hn : n < 10 ^ k) (hk : 0 < k) :
    (toLocaleString n).length ≤ 2 * k := by
  rw [toLocaleString]
  by_cases h : (n == 0) = true
  · rw [if_pos h]; simp; omega
  · rw [if_neg h]
    rw [List.length_reverse]
    calc (commaRev 0 (digitsRev n)).length ≤ 2 * (digitsRev n).length :=
          commaRev_length_le _ 0
      _ ≤ 2 * k := by
          have := digitsRevCore_length_le n n k hn
          rw [digitsRev]
          omega

/-- Helper: for any original length below `10 ^ 16` the truncation notice at
the default maximum is at most 180 characters. -/
theorem truncationMessage_length_le (L : Nat) (hL : L < 10 ^ 16) :
    (truncationMessage MAX_TEXT_CHARS L).length ≤ 180 := by
  rw [truncationMessage]
  have h1 : (toLocaleString MAX_TEXT_CHARS).length = 7 := by decide
  have h2 : (toLocaleString L).length ≤ 2 * 16 := toLocaleString_length_le L 16 hL (by decide)
  simp [h1]
  omega

/-- Helper: when the input is longer than the maximum and the notice fits,
`truncateOutput` is the kept head plus the notice and has length exactly the
maximum. -/
theorem truncateOutput_spec (t : List Char) (M : Nat) (hlong : M < t.length)
    (hfit : (truncationMessage M t.length).length ≤ M) :
    truncateOutput t M =
      t.take (M - (truncationMessage M t.length).length) ++ truncationMessage M t.length ∧
    (truncateOutput t M).length = M := by
  have hnot : ¬ t.length ≤ M := by omega
  constructor
  · rw [truncateOutput, if_neg hnot]
  · rw [truncateOutput, if_neg hnot]
    rw [List.length_append, List.length_take]
    omega

/-- Helper: the literal `"truncated"` occurs inside every truncation notice. -/
theorem truncated_infix_message (M L : Nat) :
    List.IsInfix "truncated".data (truncationMessage M L) := by
  have h1 : List.IsInfix "truncated".data
      "\n\n---\n**Output truncated.** Showing first ".data := by
    decide
  have h2 : List.IsInfix "\n\n---\n**Output truncated.** Showing first ".data
      (truncationMessage M L) := by
    rw [truncationMessage]
    exact ⟨[], toLocaleString M ++ " characters of ".data ++ toLocaleString L ++
      " total. Use pagination or more specific queries to retrieve remaining data.\n".data,
      by simp⟩
  exact h1.trans h2

/-- Helper: a list is an infix of itself followed by anything. -/
theorem infix_append_left (l w : List Char) : List.IsInfix l (l ++ w) :=
  ⟨[], w, by simp⟩

/-- C7: a text longer than the configured maximum (with any length a
JavaScript string can have — far below `10 ^ 16`) is truncated to exactly the
first `maximum − notice-length` characters plus the deterministic notice,
yielding output of length at most (indeed exactly) the maximum, containing
the literal substring `"truncated"`. -/
theorem truncated_output_bounded (t : List Char) (hlong : MAX_TEXT_CHARS < t.length)
    (hrep : t.length < 10 ^ 16) :
    (truncateOutput t MAX_TEXT_CHARS).length ≤ MAX_TEXT_CHARS ∧
    List.IsInfix "truncated".data (truncateOutput t MAX_TEXT_CHARS) ∧
    truncateOutput t MAX_TEXT_CHARS =
      t.take (MAX_TEXT_CHARS - (truncationMessage MAX_TEXT_CHARS t.length).length) ++
        truncationMessage MAX_TEXT_CHARS t.length := by
  have hfit : (truncationMessage MAX_TEXT_CHARS t.length).length ≤ MAX_TEXT_CHARS := by
    have := truncationMessage_length_le t.length hrep
    rw [MAX_TEXT_CHARS] at *
    omega
  obtain ⟨heq, hlen⟩ := truncateOutput_spec t MAX_TEXT_CHARS hlong hfit
  refine ⟨by omega, ?_, heq⟩
  have h1 : List.IsInfix "truncated".data (truncationMessage MAX_TEXT_CHARS t.length) :=
    truncated_infix_message _ _
  have h2 : List.IsSuffix (truncationMessage MAX_TEXT_CHARS t.length)
      (truncateOutput t MAX_TEXT_CHARS) := by
    rw [heq]
    exact List.suffix_append _ _
  exact h1.trans h2.isInfix

set_option maxRecDepth 8000 in
/-- Witness for C7 at a concrete over-long text of 100001 characters. -/
theorem truncated_output_bounded_w :
    (MAX_TEXT_CHARS < (List.replicate (MAX_TEXT_CHARS + 1) 'b').length ∧
      (List.replicate (MAX_TEXT_CHARS + 1) 'b').length < 10 ^ 16) ∧
    ((truncateOutput (List.replicate (MAX_TEXT_CHARS + 1) 'b') MAX_TEXT_CHARS).length ≤
        MAX_TEXT_CHARS ∧
      List.IsInfix "truncated".data
        (truncateOutput (List.replicate (MAX_TEXT_CHARS + 1) 'b') MAX_TEXT_CHARS) ∧
      truncateOutput (List.replicate (MAX_TEXT_CHARS + 1) 'b') MAX_TEXT_CHARS =
        (List.replicate (MAX_TEXT_CHARS + 1) 'b').take (MAX_TEXT_CHARS -
            (truncationMessage MAX_TEXT_CHARS
              (List.replicate (MAX_TEXT_CHARS + 1) 'b').length).length) ++
          truncationMessage MAX_TEXT_CHARS
            (List.replicate (MAX_TEXT_CHARS + 1) 'b').length) := by
  have hlen : (List.replicate (MAX_TEXT_CHARS + 1) 'b').length = MAX_TEXT_CHARS + 1 := by
    simp
  have h1 : MAX_TEXT_CHARS < (List.replicate (MAX_TEXT_CHARS + 1) 'b').length := by
    rw [hlen]; omega
  have h2 : (List.replicate (MAX_TEXT_CHARS + 1) 'b').length < 10 ^ 16 := by
    rw [hlen]; decide
  exact ⟨⟨h1, h2⟩, truncated_output_bounded _ h1 h2⟩

/-- Helper: the first three characters of the size warning. -/
theorem contextWarning_take3 (e : Nat) : (contextWarning e).take 3 = "\n\n>".data := by
  rw [contextWarning, List.append_assoc]
  rw [List.take_append_of_le_length
    (by decide : 3 ≤ ("\n\n> **Note:** This response contains approximately ".data).length)]
  decide

/-- Helper: the first three characters of the truncation notice. -/
theorem truncationMessage_take3 (m l : Nat) :
    (truncationMessage m l).take 3 = "\n\n-".data := by
  rw [truncationMessage]
  simp only [List.append_assoc]
  rw [List.take_append_of_le_length
    (by decide : 3 ≤ ("\n\n---\n**Output truncated.** Showing first ".data).length)]
  decide

set_option maxRecDepth 8000 in
/-- C8: the size warning is appended exactly when the estimated token count
(`ceil(length / 4)`) exceeds 80 % of the maximum token budget
(`MAX_TEXT_CHARS / 4`), i.e. 20000 tokens; the warning text differs from
every truncation notice; and on a 100001-character input both the truncation
notice and the size warning appear together in `prepareTextOutput`'s
result. -/
theorem context_warning_exact_threshold (t : List Char) :
    (MAX_TEXT_CHARS / 4 * 80 / 100 < estimateTokenCount t →
      addContextWarningIfNeeded t = t ++ contextWarning (estimateTokenCount t)) ∧
    (estimateTokenCount t ≤ MAX_TEXT_CHARS / 4 * 80 / 100 →
      addContextWarningIfNeeded t = t) ∧
    (∀ e m l, contextWarning e ≠ truncationMessage m l) ∧
    (List.IsInfix "truncated".data
        (prepareTextOutput (List.replicate (MAX_TEXT_CHARS + 1) 'a')) ∧
      List.IsSuffix
        (contextWarning (estimateTokenCount
          (truncateOutput (List.replicate (MAX_TEXT_CHARS + 1) 'a') MAX_TEXT_CHARS)))
        (prepareTextOutput (List.replicate (MAX_TEXT_CHARS + 1) 'a'))) := by
  refine ⟨?_, ?_, ?_, ?_⟩
  · intro h
    rw [estimateTokenCount, MAX_TEXT_CHARS] at h
    rw [addContextWarningIfNeeded, if_pos]
    rw [warningThreshold, MAX_TEXT_CHARS]
    omega
  · intro h
    rw [estimateTokenCount, MAX_TEXT_CHARS] at h
    rw [addContextWarningIfNeeded, if_neg]
    rw [warningThreshold, MAX_TEXT_CHARS]
    omega
  · intro e m l heq
    have h3 := (contextWarning_take3 e).symm.trans
      ((congrArg (List.take 3) heq).trans (truncationMessage_take3 m l))
    exact absurd h3 (by decide)
  · have hlen : (List.replicate (MAX_TEXT_CHARS + 1) 'a').length = MAX_TEXT_CHARS + 1 := by
      simp
    have hfit : (truncationMessage MAX_TEXT_CHARS
        (List.replicate (MAX_TEXT_CHARS + 1) 'a').length).length ≤ MAX_TEXT_CHARS := by
      rw [hlen]; decide
    obtain ⟨heq, hlenM⟩ := truncateOutput_spec (List.replicate (MAX_TEXT_CHARS + 1) 'a')
      MAX_TEXT_CHARS (by omega) hfit
    have hwarn : prepareTextOutput (List.replicate (MAX_TEXT_CHARS + 1) 'a') =
        truncateOutput (List.replicate (MAX_TEXT_CHARS + 1) 'a') MAX_TEXT_CHARS ++
          contextWarning (estimateTokenCount
            (truncateOutput (List.replicate (MAX_TEXT_CHARS + 1) 'a') MAX_TEXT_CHARS)) := by
      rw [prepareTextOutput, addContextWarningIfNeeded, if_pos]
      rw [hlenM]
      decide
    constructor
    · have hs : List.IsSuffix (truncationMessage MAX_TEXT_CHARS
          (List.replicate (MAX_TEXT_CHARS + 1) 'a').length)
          (truncateOutput (List.replicate (MAX_TEXT_CHARS + 1) 'a') MAX_TEXT_CHARS) := by
        rw [heq]
        exact List.suffix_append _ _
      have h1 : List.IsInfix "truncated".data
          (truncateOutput (List.replicate (MAX_TEXT_CHARS + 1) 'a') MAX_TEXT_CHARS) :=
        (truncated_infix_message _ _).trans hs.isInfix
      have h2 : List.IsInfix
          (truncateOutput (List.replicate (MAX_TEXT_CHARS + 1) 'a') MAX_TEXT_CHARS)
          (prepareTextOutput (List.replicate (MAX_TEXT_CHARS + 1) 'a')) := by
        rw [hwarn]
        exact infix_append_left _ _
      exact h1.trans h2
    · rw [hwarn]
      exact List.suffix_append _ _

set_option maxRecDepth 8000 in
/-- Witness for C8: a 80004-character text (20001 estimated tokens) gets the
warning, a 2-character text does not, and the two notices differ at concrete
arguments. -/
theorem context_warning_exact_threshold_w :
    (MAX_TEXT_CHARS / 4 * 80 / 100 < estimateTokenCount (List.replicate 80004 'b') ∧
      estimateTokenCount "hi".data ≤ MAX_TEXT_CHARS / 4 * 80 / 100) ∧
    (addContextWarningIfNeeded (List.replicate 80004 'b') =
        List.replicate 80004 'b' ++
          contextWarning (estimateTokenCount (List.replicate 80004 'b')) ∧
      addContextWarningIfNeeded "hi".data = "hi".data ∧
      contextWarning 1 ≠ truncationMessage 2 3) := by
  have hL : (List.replicate 80004 'b').length = 80004 := by
    simp only [List.length_replicate]
  have ha : MAX_TEXT_CHARS / 4 * 80 / 100 < estimateTokenCount (List.replicate 80004 'b') := by
    rw [estimateTokenCount, hL]; decide
  have hb : estimateTokenCount "hi".data ≤ MAX_TEXT_CHARS / 4 * 80 / 100 := by decide
  exact ⟨⟨ha, hb⟩,
    (context_warning_exact_threshold (List.replicate 80004 'b')).1 ha,
    (context_warning_exact_threshold "hi".data).2.1 hb,
    (context_warning_exact_threshold []).2.2.1 1 2 3⟩

/-- C10: `truncateOutput` is idempotent whenever the configured maximum is at
least the length of the truncation notice: a second application returns the
first result unchanged, and when truncation occurs the first result's length
is exactly the maximum. -/
theorem truncateOutput_idempotent (t : List Char) (M : Nat)
    (hfit : (truncationMessage M t.length).length ≤ M) :
    truncateOutput (truncateOutput t M) M = truncateOutput t M ∧
    (M < t.length → (truncateOutput t M).length = M) := by
  by_cases hle : t.length ≤ M
  · have h1 : truncateOutput t M = t := by rw [truncateOutput, if_pos hle]
    rw [h1]
    exact ⟨h1, by omega⟩
  · have hlong : M < t.length := by omega
    obtain ⟨_, hlen⟩ := truncateOutput_spec t M hlong hfit
    refine ⟨?_, fun _ => hlen⟩
    rw [truncateOutput, if_pos (by omega : (truncateOutput t M).length ≤ M)]

set_option maxRecDepth 8000 in
/-- Witness for C10 at a 400-character text and maximum 300: the notice fits,
truncation occurs, and a second truncation is the identity. -/
theorem truncateOutput_idempotent_w :
    ((truncationMessage 300 (List.replicate 400 'c').length).length ≤ 300 ∧
      300 < (List.replicate 400 'c').length) ∧
    (truncateOutput (truncateOutput (List.replicate 400 'c') 300) 300 =
        truncateOutput (List.replicate 400 'c') 300 ∧
      (truncateOutput (List.replicate 400 'c') 300).length = 300) := by
  have hL : (List.replicate 400 'c').length = 400 := by
    simp only [List.length_replicate]
  have hfit : (truncationMessage 300 (List.replicate 400 'c').length).length ≤ 300 := by
    rw [hL]; decide
  have hlong : 300 < (List.replicate 400 'c').length := by rw [hL]; omega
  have H := truncateOutput_idempotent (List.replicate 400 'c') 300 hfit
  exact ⟨⟨hfit, hlong⟩, H.1, H.2 hlong⟩

/-- Predicate for an environment variable that is absent (or set to the empty
string, which JS `||` treats the same way). -/
def missingVar (v : Option String) : Prop := v = none ∨ v = some ""

/-- C9 counterexample: with `PM_REGION` absent but site name, username and
password present, startup does not exit — the region silently defaults to
`"au"` and the `AuthManager` is constructed — so the absence of the region
code is not detected by the presence validation and is not fatal. -/
theorem startup_region_absent_not_fatal :
    startup ⟨none, some "mysite", some "user@example.com", some "pw", none⟩ =
      .ok ⟨"au", "mysite", "user@example.com", "pw", none⟩ := by rfl

/-- C9 (amended): absence (or emptiness) of site name, username or password
is detected by the startup presence validation and is fatal before the core
runs: the process exits with the non-zero status 1 and the diagnostic
message, and the `AuthManager` is never constructed.  The region code is not
part of the validation; it defaults to `"au"` when absent. -/
theorem startup_missing_required_fatal (env : EnvVars)
    (h : missingVar env.PM_SITE_NAME ∨ missingVar env.PM_USERNAME ∨
         missingVar env.PM_PASSWORD) :
    startup env = .error (1, missingConfigMessage) ∧ (1 : Nat) ≠ 0 := by
  have key : ∀ v : Option String, missingVar v → orFallback v "" = "" := by
    intro v hv
    rcases hv with h1 | h1 <;> simp [orFallback, h1]
  refine ⟨?_, by decide⟩
  unfold startup loadConfig
  rcases h with h1 | h1 | h1 <;> simp [key _ h1]

/-- Witness for C9's amended theorem: `PM_USERNAME` absent while the region
is present. -/
theorem startup_missing_required_fatal_w :
    (missingVar (⟨some "eu", some "mysite", none, some "pw", none⟩ : EnvVars).PM_USERNAME) ∧
    (startup ⟨some "eu", some "mysite", none, some "pw", none⟩ =
        .error (1, missingConfigMessage) ∧ (1 : Nat) ≠ 0) :=
  ⟨Or.inl rfl,
   startup_missing_required_fatal ⟨some "eu", some "mysite", none, some "pw", none⟩
     (Or.inr (Or.inl (Or.inl rfl)))⟩
